import Mathlib

/-!
Shallow embedding of the books CRUD service (`models.py`, `database.py`,
`main.py`) and proofs of its specified properties.

The SQLite `books` table is modelled as a list of rows plus an id counter
and a clock for `created_at` timestamps; dynamically built SQL statements
(column lists built from Python dicts) are modelled as association lists
over the fixed column enumeration.
-/

namespace BooksApi

/-- The columns of the `books` table (spec §6: persisted state). -/
inductive Col where
  | id | title | author | publisher | price | publish_date | isbn | cover_url | created_at
  deriving DecidableEq, Repr

/-- A SQLite cell value: the service only stores strings and integers. -/
inductive Val where
  | s (v : String)
  | i (v : Int)
  deriving DecidableEq, Repr

/-- A stored row of the `books` table.  `id` is the integer primary key and
is never NULL; every other column is nullable at the store level (the
non-null requirements on `title`/`author`/`price` are enforced by the
validation/handler layer, spec §3). -/
structure Row where
  id : Int
  title : Option Val
  author : Option Val
  publisher : Option Val
  price : Option Val
  publish_date : Option Val
  isbn : Option Val
  cover_url : Option Val
  created_at : Option Val
  deriving DecidableEq, Repr

/-- A Python dict mapping column names to (possibly `None`) values, as passed
to `database.create_book` / `database.update_book`.  The dicts the service
builds have distinct keys in field declaration order. -/
abbrev Dict : Type := List (Col × Option Val)

/-- Python `dict.get(c)`: `none` both when the key is absent and when it maps to
`None`, exactly like Python's `dict.get`. -/
def Dict.get (d : Dict) (c : Col) : Option Val :=
  (List.find? (fun kv => kv.1 == c) d).bind (fun kv => kv.2)

/-- Read column `c` of a row (`row[c]` on a `sqlite3.Row`). -/
def Row.get (r : Row) : Col → Option Val
  | .id => some (.i r.id)
  | .title => r.title
  | .author => r.author
  | .publisher => r.publisher
  | .price => r.price
  | .publish_date => r.publish_date
  | .isbn => r.isbn
  | .cover_url => r.cover_url
  | .created_at => r.created_at

/-- Effect of a single SQL `SET c = v` (or insert of column `c`) on a row.
Setting `id` only applies an integer value (the primary key is an integer
column); no code path of the service ever sets `id` or sets a column to a
value of the wrong type. -/
def Row.setCol (r : Row) (c : Col) (v : Option Val) : Row :=
  match c with
  | .id => match v with
           | some (.i n) => { r with id := n }
           | _ => r
  | .title => { r with title := v }
  | .author => { r with author := v }
  | .publisher => { r with publisher := v }
  | .price => { r with price := v }
  | .publish_date => { r with publish_date := v }
  | .isbn => { r with isbn := v }
  | .cover_url => { r with cover_url := v }
  | .created_at => { r with created_at := v }

/-- Apply a list of column assignments left to right (the built `SET` clause
of an UPDATE, or the column/value lists of an INSERT). -/
def applyAssignments (d : Dict) (r : Row) : Row :=
  d.foldl (fun r kv => r.setCol kv.1 kv.2) r

/-- Modelled from the spec: the `books` table schema (its DDL is not part of
`src/`).  Per spec §6, `id` is an auto-assigned primary key and `created_at`
is auto-assigned at insert, so the store state carries the next id to assign
and a clock supplying `created_at` timestamps. -/
structure DB where
  rows : List Row
  nextId : Int
  clock : Int
  deriving DecidableEq, Repr

/-- Rows listed in strictly ascending `id` order (so ids are unique), and
every stored id is below the next id the store will assign. -/
def DB.WF (db : DB) : Prop :=
  db.rows.Pairwise (fun a b => a.id < b.id) ∧ ∀ r ∈ db.rows, r.id < db.nextId

instance (db : DB) : Decidable db.WF := by
  unfold DB.WF; infer_instance

/-! ### database.py -/

namespace Database

/-- Total order on rows by `id`, the `ORDER BY id` sort key. -/
def rowLE (a b : Row) : Prop := a.id ≤ b.id

instance : DecidableRel rowLE := fun a b => inferInstanceAs (Decidable (a.id ≤ b.id))

instance : IsTotal Row rowLE := ⟨fun a b => Int.le_total a.id b.id⟩

instance : IsTrans Row rowLE := ⟨fun _ _ _ h h' => Int.le_trans h h'⟩

/-- Embeds `database.get_all_books`: `SELECT * FROM books ORDER BY id LIMIT ? OFFSET ?`.
SQLite treats a negative OFFSET as 0 and a negative LIMIT as "no limit". -/
def get_all_books (db : DB) (skip limit : Int) : List Row :=
  let sorted := List.insertionSort rowLE db.rows
  let offs := sorted.drop skip.toNat
  if limit < 0 then offs else offs.take limit.toNat

/-- Embeds `database.get_book_by_id`: `SELECT * FROM books WHERE id = ?` + `fetchone()`. -/
def get_book_by_id (db : DB) (book_id : Int) : Option Row :=
  db.rows.find? (fun r => r.id == book_id)

/-- The blank row an INSERT starts from: store-side defaults assign `id` and
`created_at` (modelled from the spec, §6) and leave every other column NULL. -/
def defaultRow (db : DB) : Row :=
  { id := db.nextId, title := none, author := none, publisher := none,
    price := none, publish_date := none, isbn := none, cover_url := none,
    created_at := some (.i db.clock) }

/-- Embeds `database.create_book`: drops `None` values from `book_data`, then builds
`INSERT INTO books (columns) VALUES (...)` from the remaining pairs and
returns `last_insert_rowid()`.  An empty column list is a SQL syntax error,
modelled as `none`. -/
def create_book (book_data : Dict) (db : DB) : Option (Int × DB) :=
  let filtered_data : Dict := List.filter (fun kv => kv.2 ≠ none) book_data
  if filtered_data.isEmpty then none
  else
    let row := applyAssignments filtered_data (defaultRow db)
    some (db.nextId,
      { rows := db.rows ++ [row], nextId := db.nextId + 1, clock := db.clock + 1 })

/-- Embeds `database.update_book`: removes the `id` and `created_at` keys, builds
`UPDATE books SET ... WHERE id = ?` from the rest, and returns
`cursor.rowcount == 1` (the number of rows matched by the WHERE clause).
An empty SET clause is a SQL syntax error, modelled as `none`. -/
def update_book (book_id : Int) (book_data : Dict) (db : DB) : Option (Bool × DB) :=
  let update_data : Dict :=
    List.filter (fun kv => ¬ (kv.1 = Col.id ∨ kv.1 = Col.created_at)) book_data
  if update_data.isEmpty then none
  else
    let rows := db.rows.map (fun r =>
      if r.id = book_id then applyAssignments update_data r else r)
    let affected := db.rows.countP (fun r => r.id == book_id)
    some (affected == 1, { db with rows := rows })

/-- Embeds `database.delete_book`: `DELETE FROM books WHERE id = ?`, returning
`cursor.rowcount == 1`. -/
def delete_book (book_id : Int) (db : DB) : Bool × DB :=
  let affected := db.rows.countP (fun r => r.id == book_id)
  (affected == 1, { db with rows := db.rows.filter (fun r => ¬ r.id == book_id) })

end Database

/-! ### models.py -/

/-- A pydantic `Optional` field of a request body is tri-state: absent from
the JSON body (`unset`), explicitly `null`, or carrying a value. -/
inductive Tri (α : Type) where
  | unset
  | null
  | val (a : α)
  deriving DecidableEq, Repr

/-- Embeds `models.BookCreate`: the request body for POST and PUT, every field
optional. -/
structure BookCreate where
  title : Tri String
  author : Tri String
  publisher : Tri String
  price : Tri Int
  publish_date : Tri String
  isbn : Tri String
  cover_url : Tri String
  deriving DecidableEq, Repr

/-- The body with every field unset (an empty JSON body `{}`). -/
def BookCreate.empty : BookCreate :=
  ⟨.unset, .unset, .unset, .unset, .unset, .unset, .unset⟩

/-- The input columns of `BookCreate`, in field declaration order. -/
def inputCols : List Col :=
  [.title, .author, .publisher, .price, .publish_date, .isbn, .cover_url]

/-- The tri-state content of one `BookCreate` field, as a `Val`. -/
def BookCreate.getTri (b : BookCreate) : Col → Tri Val
  | .title => match b.title with | .unset => .unset | .null => .null | .val v => .val (.s v)
  | .author => match b.author with | .unset => .unset | .null => .null | .val v => .val (.s v)
  | .publisher => match b.publisher with | .unset => .unset | .null => .null | .val v => .val (.s v)
  | .price => match b.price with | .unset => .unset | .null => .null | .val v => .val (.i v)
  | .publish_date => match b.publish_date with | .unset => .unset | .null => .null | .val v => .val (.s v)
  | .isbn => match b.isbn with | .unset => .unset | .null => .null | .val v => .val (.s v)
  | .cover_url => match b.cover_url with | .unset => .unset | .null => .null | .val v => .val (.s v)
  | .id => .unset
  | .created_at => .unset

/-- The dict entry contributed by one field: nothing when unset, a `None`
value when explicitly null, the value otherwise. -/
def BookCreate.triEntry (b : BookCreate) (c : Col) : Option (Col × Option Val) :=
  match b.getTri c with
  | .unset => none
  | .null => some (c, none)
  | .val v => some (c, some v)

/-- Embeds `book.dict(exclude_unset=True)`: the explicitly supplied fields, in field
order; an explicit `null` is kept (as `none`), an unset field is dropped. -/
def BookCreate.dictExcludeUnset (b : BookCreate) : Dict :=
  inputCols.filterMap b.triEntry

/-- Pattern `^\d{4}-\d{2}-\d{2}$`, the `publish_date` constraint of `models.BookCreate`. -/
def datePattern (s : String) : Bool :=
  match s.data with
  | [y1, y2, y3, y4, d1, m1, m2, d2, a1, a2] =>
    y1.isDigit && y2.isDigit && y3.isDigit && y4.isDigit && d1 = '-' &&
    m1.isDigit && m2.isDigit && d2 = '-' && a1.isDigit && a2.isDigit
  | _ => false

/-- Pydantic validation of a `BookCreate` body: `title`/`author` need
`min_length=1` when present, `price` must be `> 0` when present (both the
`Field(gt=0)` constraint and the `validate_price_on_create` validator), and
`publish_date` must match the date pattern when present.  A request body
failing this never reaches a handler: FastAPI answers 422. -/
def BookCreate.validB (b : BookCreate) : Bool :=
  (match b.title with | .val s => s.length ≥ 1 | _ => true) &&
  (match b.author with | .val s => s.length ≥ 1 | _ => true) &&
  (match b.price with | .val p => p > 0 | _ => true) &&
  (match b.publish_date with | .val s => datePattern s | _ => true)

/-! ### main.py -/

/-- An HTTP error response (`HTTPException` or a FastAPI validation
rejection), identified by its status code. -/
structure Http where
  status : Nat
  deriving DecidableEq, Repr

instance {ε α : Type} [DecidableEq ε] [DecidableEq α] : DecidableEq (Except ε α) := fun a b =>
  match a, b with
  | .error e, .error f =>
    if h : e = f then .isTrue (by rw [h]) else .isFalse (fun hh => h (Except.error.inj hh))
  | .error _, .ok _ => .isFalse (fun hh => Except.noConfusion hh)
  | .ok _, .error _ => .isFalse (fun hh => Except.noConfusion hh)
  | .ok x, .ok y =>
    if h : x = y then .isTrue (by rw [h]) else .isFalse (fun hh => h (Except.ok.inj hh))

def e400 : Http := ⟨400⟩
def e404 : Http := ⟨404⟩
def e422 : Http := ⟨422⟩
def e500 : Http := ⟨500⟩

namespace Main

/-- Python truthiness of a `dict.get` result: `None` and the empty string
(and the integer 0) are falsy. -/
def falsy : Option Val → Bool
  | none => true
  | some (.s s) => s == ""
  | some (.i n) => n == 0

/-- Embeds `GET /books` (`main.read_books`): FastAPI validates the query parameters
(`skip ≥ 0`, `0 < limit ≤ 100`) and rejects with 422 otherwise; the handler
then returns `database.get_all_books(skip, limit)`.  Read-only. -/
def read_books (db : DB) (skip limit : Int) : Except Http (List Row) :=
  if skip < 0 then .error e422
  else if limit ≤ 0 then .error e422
  else if 100 < limit then .error e422
  else .ok (Database.get_all_books db skip limit)

/-- Embeds `GET /books/{book_id}` (`main.read_book`): 404 when absent.  Read-only. -/
def read_book (db : DB) (book_id : Int) : Except Http Row :=
  match Database.get_book_by_id db book_id with
  | none => .error e404
  | some book => .ok book

/-- Embeds `POST /books` (`main.create_book`), including the FastAPI/pydantic body
validation step (422 on an invalid body, before the handler runs).  Returns
the response together with the store state after the call. -/
def create_book (db : DB) (book : BookCreate) : Except Http Row × DB :=
  if ¬ book.validB then (.error e422, db)
  else
    let book_data := book.dictExcludeUnset
    if falsy (book_data.get .title) || falsy (book_data.get .author) ||
        (book_data.get .price).isNone then
      (.error e422, db)
    else
      match Database.create_book book_data db with
      | none => (.error e500, db)
      | some (new_id, db') =>
        match Database.get_book_by_id db' new_id with
        | none => (.error e500, db')
        | some new_book => (.ok new_book, db')

/-- Embeds `PUT /books/{book_id}` (`main.update_book`), including the body
validation step: 404 when the id does not exist, 400 when the effective body
is empty, 500 when the store reports a failure, otherwise the re-fetched
updated record. -/
def update_book (db : DB) (book_id : Int) (book : BookCreate) : Except Http Row × DB :=
  if ¬ book.validB then (.error e422, db)
  else if (Database.get_book_by_id db book_id).isNone then (.error e404, db)
  else
    let update_data := book.dictExcludeUnset
    if update_data.isEmpty then (.error e400, db)
    else
      match Database.update_book book_id update_data db with
      | none => (.error e500, db)
      | some (success, db') =>
        if ¬ success then (.error e500, db')
        else
          match Database.get_book_by_id db' book_id with
          | none => (.error e500, db')
          | some updated_book => (.ok updated_book, db')

/-- Embeds `DELETE /books/{book_id}` (`main.delete_book`): 404 when
`database.delete_book` reports no (single) row deleted, else 204/no content.
The DELETE statement has executed either way, so the state is returned in
both branches. -/
def delete_book (db : DB) (book_id : Int) : Except Http Unit × DB :=
  match Database.delete_book book_id db with
  | (deleted, db') => if ¬ deleted then (.error e404, db') else (.ok (), db')

end Main

/-! ### Helper lemmas -/

/-- Setting one column leaves every other column unchanged. -/
theorem Row.get_setCol_ne (r : Row) {c c' : Col} (v : Option Val) (h : c ≠ c') :
    (r.setCol c' v).get c = r.get c := by
  cases c <;> cases c' <;>
    simp_all [Row.setCol, Row.get] <;>
    (split <;> simp [Row.get])

/-- Setting a non-`id` column stores exactly the given value. -/
theorem Row.get_setCol_same (r : Row) {c : Col} (v : Option Val) (h : c ≠ Col.id) :
    (r.setCol c v).get c = v := by
  cases c <;> simp_all [Row.setCol, Row.get]

theorem applyAssignments_cons (kv : Col × Option Val) (d : Dict) (r : Row) :
    applyAssignments (kv :: d) r = applyAssignments d (r.setCol kv.1 kv.2) := by
  simp [applyAssignments]

/-- A column that is not assigned keeps its value across a SET clause. -/
theorem applyAssignments_get_not_mem {d : Dict} {c : Col} (r : Row)
    (h : c ∉ d.map Prod.fst) : (applyAssignments d r).get c = r.get c := by
  induction d generalizing r with
  | nil => rfl
  | cons kv d ih =>
    simp only [List.map_cons, List.mem_cons, not_or] at h
    rw [applyAssignments_cons, ih _ h.2, Row.get_setCol_ne _ _ h.1]

/-- An assigned column (of a dict with distinct keys) ends up holding the
assigned value. -/
theorem applyAssignments_get_mem {d : Dict} {c : Col} {v : Option Val} (r : Row)
    (hnd : (d.map Prod.fst).Nodup) (hmem : (c, v) ∈ d) (hc : c ≠ Col.id) :
    (applyAssignments d r).get c = v := by
  induction d generalizing r with
  | nil => simp at hmem
  | cons kv d ih =>
    simp only [List.map_cons, List.nodup_cons] at hnd
    rcases List.mem_cons.mp hmem with h | h
    · subst h
      rw [applyAssignments_cons, applyAssignments_get_not_mem _ hnd.1,
        Row.get_setCol_same _ _ hc]
    · rw [applyAssignments_cons]
      exact ih _ hnd.2 h

/-- A field entry, when present, is keyed by its own column. -/
theorem BookCreate.triEntry_fst {b : BookCreate} {c : Col} {kv : Col × Option Val}
    (h : b.triEntry c = some kv) : kv.1 = c := by
  unfold BookCreate.triEntry at h
  split at h <;> first
    | exact Option.noConfusion h
    | (cases h; rfl)

/-- The keys of the effective-fields dict are a sublist of the input columns. -/
theorem BookCreate.dict_keys_sublist (b : BookCreate) :
    (b.dictExcludeUnset.map Prod.fst).Sublist inputCols := by
  unfold BookCreate.dictExcludeUnset
  generalize inputCols = cs
  induction cs with
  | nil => simp
  | cons c cs ih =>
    rw [List.filterMap_cons]
    cases h : b.triEntry c with
    | none => exact ih.trans (List.sublist_cons_self c cs)
    | some kv =>
      simpa [BookCreate.triEntry_fst h] using List.Sublist.cons₂ c ih

/-- The effective-fields dict has distinct keys. -/
theorem BookCreate.dict_keys_nodup (b : BookCreate) :
    (b.dictExcludeUnset.map Prod.fst).Nodup :=
  (b.dict_keys_sublist).nodup (by decide)

/-- The effective-fields dict never mentions `id` or `created_at`. -/
theorem BookCreate.dict_keys_input {b : BookCreate} {kv : Col × Option Val}
    (h : kv ∈ b.dictExcludeUnset) : kv.1 ≠ Col.id ∧ kv.1 ≠ Col.created_at := by
  have hmem : kv.1 ∈ inputCols := by
    have := List.mem_map_of_mem Prod.fst h
    exact b.dict_keys_sublist.subset this
  simp only [inputCols, List.mem_cons, List.not_mem_nil, or_false] at hmem
  rcases hmem with h' | h' | h' | h' | h' | h' | h' <;> rw [h'] <;>
    exact ⟨by decide, by decide⟩

/-- Membership in the effective-fields dict, in terms of the body's fields. -/
theorem BookCreate.mem_dictExcludeUnset {b : BookCreate} {c : Col} {v : Option Val} :
    (c, v) ∈ b.dictExcludeUnset ↔ c ∈ inputCols ∧ b.triEntry c = some (c, v) := by
  unfold BookCreate.dictExcludeUnset
  rw [List.mem_filterMap]
  constructor
  · rintro ⟨a, ha, he⟩
    have h2 : c = a := BookCreate.triEntry_fst he
    subst h2
    exact ⟨ha, he⟩
  · rintro ⟨hc, he⟩
    exact ⟨c, hc, he⟩

/-- In a row list with strictly ascending ids, each member's id occurs exactly
once (the row count a `WHERE id = ?` statement reports). -/
theorem countP_id_eq_one {rows : List Row} (hp : rows.Pairwise (fun a b => a.id < b.id))
    {r : Row} (hr : r ∈ rows) : rows.countP (fun x => x.id == r.id) = 1 := by
  induction rows with
  | nil => simp at hr
  | cons a l ih =>
    rw [List.pairwise_cons] at hp
    rw [List.countP_cons]
    rcases List.mem_cons.mp hr with h | h
    · subst h
      have hz : l.countP (fun x => x.id == r.id) = 0 := by
        rw [List.countP_eq_zero]
        intro b hb
        have := hp.1 b hb
        simp only [beq_iff_eq]
        omega
      simp [hz]
    · have hne : ¬ (a.id == r.id) := by
        have := hp.1 r h
        simp only [beq_iff_eq]
        omega
      rw [ih hp.2 h]
      simp [hne]

/-- Lemma: `find?` skips a prefix none of whose elements satisfy the predicate. -/
theorem find?_append_right {p : Row → Bool} {l₁ : List Row} (l₂ : List Row)
    (h : ∀ x ∈ l₁, ¬ p x) : (l₁ ++ l₂).find? p = l₂.find? p := by
  induction l₁ with
  | nil => rfl
  | cons a l ih =>
    have ha : ¬ p a := h a (List.mem_cons_self a l)
    simp only [List.cons_append, List.find?_cons, Bool.not_eq_true] at *
    rw [ha]
    exact ih (fun x hx => h x (List.mem_cons_of_mem a hx))

/-- Looking up a key that is absent from a dict yields `none`. -/
theorem Dict.get_not_mem {d : Dict} {c : Col} (h : c ∉ d.map Prod.fst) :
    Dict.get d c = none := by
  unfold Dict.get
  have hf : List.find? (fun kv => kv.1 == c) d = none := by
    rw [List.find?_eq_none]
    intro kv hkv
    simp only [beq_iff_eq]
    intro he
    exact h (he ▸ List.mem_map_of_mem Prod.fst hkv)
  rw [hf]
  rfl

/-- Result of `dict.get(c)` on the effective-fields dict: the value when the field
carries one, `None` when the field is unset or explicitly null. -/
theorem BookCreate.dict_get_aux (b : BookCreate) {c : Col} {cs : List Col}
    (hnd : cs.Nodup) (hc : c ∈ cs) :
    Dict.get (cs.filterMap b.triEntry) c =
      (match b.getTri c with | .val v => some v | _ => none) := by
  induction cs with
  | nil => simp at hc
  | cons c' cs ih =>
    rw [List.nodup_cons] at hnd
    rw [List.filterMap_cons]
    by_cases hcc : c = c'
    · subst hcc
      cases he : b.triEntry c with
      | none =>
        have hget : b.getTri c = .unset := by
          unfold BookCreate.triEntry at he
          split at he <;> simp_all
        have hkeys : c ∉ (cs.filterMap b.triEntry).map Prod.fst := by
          intro hmem
          rcases List.mem_map.mp hmem with ⟨kv, hkv, hfst⟩
          rcases List.mem_filterMap.mp hkv with ⟨a, ha, hea⟩
          have h1 : kv.1 = a := BookCreate.triEntry_fst hea
          apply hnd.1
          rw [← hfst, h1]
          exact ha
        rw [Dict.get_not_mem hkeys, hget]
      | some kv =>
        have hfst : kv.1 = c := BookCreate.triEntry_fst he
        unfold Dict.get
        rw [List.find?_cons_of_pos _ (by simp [hfst])]
        unfold BookCreate.triEntry at he
        rcases hg : b.getTri c with _ | _ | v <;> rw [hg] at he
        · exact Option.noConfusion he
        · injection he with h2; cases h2; rfl
        · injection he with h2; cases h2; rfl
    · have hc' : c ∈ cs := (List.mem_cons.mp hc).resolve_left hcc
      cases he : b.triEntry c' with
      | none => exact ih hnd.2 hc'
      | some kv =>
        have hfst : kv.1 = c' := BookCreate.triEntry_fst he
        unfold Dict.get
        rw [List.find?_cons_of_neg _ (by simp [hfst, Ne.symm hcc])]
        exact ih hnd.2 hc'

/-- Result of `dict.get(c)` on the effective-fields dict: the value when the field
carries one, `None` when the field is unset or explicitly null. -/
theorem BookCreate.dict_get (b : BookCreate) {c : Col} (hc : c ∈ inputCols) :
    Dict.get b.dictExcludeUnset c =
      (match b.getTri c with | .val v => some v | _ => none) :=
  b.dict_get_aux (by decide) hc

/-- A SET clause that touches neither `id` nor `created_at` leaves both
columns of any row unchanged. -/
theorem applyAssignments_preserves {d : Dict}
    (hd : ∀ kv ∈ d, kv.1 ≠ Col.id ∧ kv.1 ≠ Col.created_at) (r : Row) :
    (applyAssignments d r).id = r.id ∧ (applyAssignments d r).created_at = r.created_at := by
  have hid : Col.id ∉ d.map Prod.fst := by
    intro hmem
    rcases List.mem_map.mp hmem with ⟨kv, hkv, hfst⟩
    exact (hd kv hkv).1 hfst
  have hca : Col.created_at ∉ d.map Prod.fst := by
    intro hmem
    rcases List.mem_map.mp hmem with ⟨kv, hkv, hfst⟩
    exact (hd kv hkv).2 hfst
  have h1 := applyAssignments_get_not_mem (d := d) r hid
  have h2 := applyAssignments_get_not_mem (d := d) r hca
  simp only [Row.get] at h1 h2
  exact ⟨by simpa using h1, h2⟩

/-- Filtering out `id`/`created_at` keys from an effective-fields dict is the
identity: `BookCreate` has no such fields. -/
theorem updateData_dict (b : BookCreate) :
    List.filter (fun kv => ¬ (kv.1 = Col.id ∨ kv.1 = Col.created_at))
      b.dictExcludeUnset = b.dictExcludeUnset := by
  rw [List.filter_eq_self]
  intro kv hkv
  have := BookCreate.dict_keys_input hkv
  simp [this.1, this.2]

/-- Closed form of `database.update_book` on an effective-fields dict, in closed form. -/
theorem Database.update_book_dict (book_id : Int) (b : BookCreate) (db : DB)
    (hne : ¬ b.dictExcludeUnset.isEmpty) :
    Database.update_book book_id b.dictExcludeUnset db =
      some (db.rows.countP (fun r => r.id == book_id) == 1,
        { db with rows := db.rows.map (fun r =>
            if r.id = book_id then applyAssignments b.dictExcludeUnset r else r) }) := by
  unfold Database.update_book
  rw [updateData_dict]
  simp [hne]

/-- A body whose `price` is present and not positive fails pydantic
validation. -/
theorem BookCreate.validB_price_false {b : BookCreate} {p : Int}
    (hp : b.price = .val p) (hle : p ≤ 0) : b.validB = false := by
  have hnp : ¬ (p > 0) := by omega
  unfold BookCreate.validB
  rw [hp]
  simp [hnp]

/-- An invalid body is rejected with 422 before the POST handler runs. -/
theorem Main.create_book_of_invalid {b : BookCreate} (db : DB)
    (hv : b.validB = false) : Main.create_book db b = (.error e422, db) := by
  unfold Main.create_book
  rw [hv]
  simp

/-- The POST handler's own required-fields re-check rejects with 422. -/
theorem Main.create_book_of_check {b : BookCreate} (db : DB)
    (hc : (Main.falsy (Dict.get b.dictExcludeUnset .title) ||
      Main.falsy (Dict.get b.dictExcludeUnset .author) ||
      (Dict.get b.dictExcludeUnset .price).isNone) = true) :
    Main.create_book db b = (.error e422, db) := by
  by_cases hv : b.validB
  · unfold Main.create_book
    rw [hv]
    simp only [not_true_eq_false, if_false, ite_false]
    rw [if_pos hc]
  · exact Main.create_book_of_invalid db (Bool.eq_false_iff.mpr hv)

/-! ### Sample data for the concrete witnesses -/

def sampleDB : DB := ⟨[], 1, 0⟩

/-- Body `{"title": "T", "author": "A", "price": 100}` -/
def bodyTA : BookCreate :=
  { BookCreate.empty with title := .val "T", author := .val "A", price := .val 100 }

/-- The record the service stores for `bodyTA` on an empty store. -/
def rowT : Row :=
  { id := 1, title := some (.s "T"), author := some (.s "A"), publisher := none,
    price := some (.i 100), publish_date := none, isbn := none, cover_url := none,
    created_at := some (.i 0) }

def sampleDB1 : DB := ⟨[rowT], 2, 1⟩

/-- Body `{"price": 500}` -/
def bodyPrice500 : BookCreate := { BookCreate.empty with price := .val 500 }

/-- Body `{"title": "T", "author": "A", "price": 0}` -/
def bodyPrice0 : BookCreate :=
  { BookCreate.empty with title := .val "T", author := .val "A", price := .val 0 }

/-- Body `{"author": "A", "price": 100}` (no title) -/
def bodyNoTitle : BookCreate :=
  { BookCreate.empty with author := .val "A", price := .val 100 }

/-- A raw store-level dict that tries to set `id` and `price`. -/
def dictWithId : Dict := [(Col.id, some (.i 99)), (Col.price, some (.i 77))]

def rowT77 : Row := { rowT with price := some (.i 77) }

def db9 : DB := ⟨[rowT77], 2, 1⟩

/-! ### The claims -/

/-- C4: for every create payload whose `price` is present and not greater
than 0, `POST /books` fails with a validation error (422) and the store
state is unchanged: no row is inserted. -/
theorem claim_C4 (db : DB) (b : BookCreate) (p : Int)
    (hp : b.price = .val p) (hle : p ≤ 0) :
    Main.create_book db b = (.error e422, db) :=
  Main.create_book_of_invalid db (BookCreate.validB_price_false hp hle)

/-- Witness for C4: creating with `price: 0` yields 422 and no stored row. -/
theorem claim_C4_witness :
    Main.create_book sampleDB bodyPrice0 = (.error e422, sampleDB) :=
  claim_C4 sampleDB bodyPrice0 0 rfl (by decide)

/-- A field that is absent from the body or explicitly null. -/
def triMissing {α : Type} (t : Tri α) : Prop := t = .unset ∨ t = .null

/-- C6: for every POST body in which `title` is missing or empty, or
`author` is missing or empty, or `price` is missing or invalid (≤ 0), the
create operation fails with a 422 validation error and no record is created
(the store state is returned unchanged). -/
theorem claim_C6 (db : DB) (b : BookCreate)
    (h : (triMissing b.title ∨ b.title = .val "") ∨
         (triMissing b.author ∨ b.author = .val "") ∨
         (triMissing b.price ∨ ∃ p, b.price = .val p ∧ p ≤ 0)) :
    Main.create_book db b = (.error e422, db) := by
  rcases h with (ht | ht) | (ha | ha) | (hp | ⟨p, hp, hple⟩)
  · apply Main.create_book_of_check
    have : b.getTri .title = .unset ∨ b.getTri .title = .null := by
      rcases ht with h | h <;> simp [BookCreate.getTri, h]
    rw [b.dict_get (by decide)]
    rcases this with h | h <;> rw [h] <;> rfl
  · exact Main.create_book_of_invalid db (by unfold BookCreate.validB; rw [ht]; simp)
  · apply Main.create_book_of_check
    have : b.getTri .author = .unset ∨ b.getTri .author = .null := by
      rcases ha with h | h <;> simp [BookCreate.getTri, h]
    rw [b.dict_get (by decide)]
    rcases this with h | h <;>
      simp [BookCreate.dict_get (c := Col.author) b (by decide), h, Main.falsy]
  · exact Main.create_book_of_invalid db (by unfold BookCreate.validB; rw [ha]; simp)
  · apply Main.create_book_of_check
    have : b.getTri .price = .unset ∨ b.getTri .price = .null := by
      rcases hp with h | h <;> simp [BookCreate.getTri, h]
    rcases this with h | h <;>
      simp [BookCreate.dict_get (c := Col.price) b (by decide), h, Option.isNone]
  · exact Main.create_book_of_invalid db (BookCreate.validB_price_false hp hple)

/-- Witness for C6: creating without a title yields 422 and no stored row. -/
theorem claim_C6_witness :
    Main.create_book sampleDB bodyNoTitle = (.error e422, sampleDB) :=
  claim_C6 sampleDB bodyNoTitle (Or.inl (Or.inl (Or.inl rfl)))

/-- C5: for every PUT request carrying a body that passes validation: when no
record with the id exists the handler answers 404 (NotFoundError) with the
store untouched, and when the record exists but the body's effective field
set is empty the handler answers 400 (EmptyUpdateError) without performing
any update. -/
theorem claim_C5 (db : DB) (pid : Int) (b : BookCreate) (hv : b.validB = true) :
    (Database.get_book_by_id db pid = none →
      Main.update_book db pid b = (.error e404, db)) ∧
    (∀ r, Database.get_book_by_id db pid = some r → b.dictExcludeUnset = [] →
      Main.update_book db pid b = (.error e400, db)) := by
  constructor
  · intro h
    unfold Main.update_book
    rw [hv, h]
    simp
  · intro r h he
    unfold Main.update_book
    rw [hv, h, he]
    simp

/-- Witness for C5: replacing id 2 (absent) on a one-record store answers
404; replacing id 1 with an empty body answers 400. -/
theorem claim_C5_witness :
    Main.update_book sampleDB1 2 bodyPrice500 = (.error e404, sampleDB1) ∧
    Main.update_book sampleDB1 1 BookCreate.empty = (.error e400, sampleDB1) :=
  ⟨(claim_C5 sampleDB1 2 bodyPrice500 (by decide)).1 (by decide),
   (claim_C5 sampleDB1 1 BookCreate.empty (by decide)).2 rowT (by decide) (by decide)⟩

/-- C8: for every id and every non-empty store-level field mapping that
excludes `id` and `created_at`, `database.update_book` returns a boolean
that is true iff exactly one row is affected (matches the WHERE clause); in
particular it returns false when no record with the id exists. -/
theorem claim_C8 (pid : Int) (d : Dict) (db : DB) (hne : d ≠ [])
    (hk : ∀ kv ∈ d, kv.1 ≠ Col.id ∧ kv.1 ≠ Col.created_at) :
    ∃ affected db', Database.update_book pid d db = some (affected, db') ∧
      (affected = true ↔ db.rows.countP (fun r => r.id == pid) = 1) ∧
      (Database.get_book_by_id db pid = none → affected = false) := by
  have hfilter : List.filter (fun kv => ¬ (kv.1 = Col.id ∨ kv.1 = Col.created_at)) d = d := by
    rw [List.filter_eq_self]
    intro kv hkv
    have := hk kv hkv
    simp [this.1, this.2]
  have hie : d.isEmpty = false := by
    cases d with
    | nil => exact absurd rfl hne
    | cons _ _ => rfl
  unfold Database.update_book
  rw [hfilter]
  simp only [hie, Bool.false_eq_true, if_false, ite_false]
  refine ⟨_, _, rfl, ?_, ?_⟩
  · simp
  · intro h
    have hz : db.rows.countP (fun r => r.id == pid) = 0 := by
      rw [List.countP_eq_zero]
      exact List.find?_eq_none.mp h
    simp [hz]

/-- Witness for C8: updating `price` at an id that is absent from the store
reports `false`. -/
theorem claim_C8_witness :
    ∃ affected db',
      Database.update_book 5 [(Col.price, some (Val.i 9))] sampleDB1 = some (affected, db') ∧
      (affected = true ↔ sampleDB1.rows.countP (fun r => r.id == 5) = 1) ∧
      (Database.get_book_by_id sampleDB1 5 = none → affected = false) :=
  claim_C8 5 [(Col.price, some (Val.i 9))] sampleDB1 (by decide) (by decide)

/-- C9: the store-level update removes the keys `id` and `created_at` from
any field mapping before the UPDATE statement is built, so an update never
modifies the `id` or `created_at` column of any record. -/
theorem claim_C9 (pid : Int) (d : Dict) (db : DB) :
    (∀ kv ∈ List.filter (fun kv => ¬ (kv.1 = Col.id ∨ kv.1 = Col.created_at)) d,
      kv.1 ≠ Col.id ∧ kv.1 ≠ Col.created_at) ∧
    (∀ affected db', Database.update_book pid d db = some (affected, db') →
      db'.rows.map (fun r => (r.id, r.created_at)) =
        db.rows.map (fun r => (r.id, r.created_at))) := by
  constructor
  · intro kv hkv
    have h2 := of_decide_eq_true (List.mem_filter.mp hkv).2
    exact not_or.mp h2
  · intro affected db' h
    unfold Database.update_book at h
    by_cases he :
        (List.filter (fun kv => ¬ (kv.1 = Col.id ∨ kv.1 = Col.created_at)) d).isEmpty
    · rw [if_pos he] at h
      exact Option.noConfusion h
    · rw [if_neg he] at h
      have hdb : db' = { db with rows := db.rows.map (fun r =>
          if r.id = pid
          then applyAssignments
            (List.filter (fun kv => ¬ (kv.1 = Col.id ∨ kv.1 = Col.created_at)) d) r
          else r) } := by
        have := (Prod.mk.injEq _ _ _ _).mp (Option.some.inj h)
        exact this.2.symm
      subst hdb
      rw [List.map_map]
      apply List.map_congr_left
      intro r hr
      by_cases hid : r.id = pid
      · simp only [Function.comp_apply, if_pos hid]
        have hpres := applyAssignments_preserves (d :=
          List.filter (fun kv => ¬ (kv.1 = Col.id ∨ kv.1 = Col.created_at)) d)
          (fun kv hkv => not_or.mp (of_decide_eq_true (List.mem_filter.mp hkv).2)) r
        rw [hpres.1, hpres.2]
      · simp only [Function.comp_apply, if_neg hid]

/-- Witness for C9: a mapping that explicitly tries to set `id := 99` leaves
both `id` and `created_at` of the stored record unchanged. -/
theorem claim_C9_witness :
    ((Col.price, some (Val.i 77)).1 ≠ Col.id ∧
      (Col.price, some (Val.i 77)).1 ≠ Col.created_at) ∧
    db9.rows.map (fun r => (r.id, r.created_at)) =
      sampleDB1.rows.map (fun r => (r.id, r.created_at)) :=
  ⟨(claim_C9 1 dictWithId sampleDB1).1 _ (by decide),
   (claim_C9 1 dictWithId sampleDB1).2 true db9 (by decide)⟩

/-- C2: for every well-formed store, offset `o ≥ 0` and limit `0 < l ≤ 100`,
`GET /books` answers the slice `[o, o+l)` of the full ascending-id sequence:
the result is ordered by ascending id, has length at most `l`, and is empty
when `o` is at least the number of rows. -/
theorem claim_C2 (db : DB) (o l : Int) (hwf : db.WF)
    (ho : 0 ≤ o) (hl0 : 0 < l) (hl100 : l ≤ 100) :
    Main.read_books db o l = .ok ((db.rows.drop o.toNat).take l.toNat) ∧
    db.rows.Pairwise (fun a b => a.id < b.id) ∧
    ((db.rows.drop o.toNat).take l.toNat).Pairwise (fun a b => a.id < b.id) ∧
    (((db.rows.drop o.toNat).take l.toNat).length : Int) ≤ l ∧
    ((db.rows.length : Int) ≤ o → (db.rows.drop o.toNat).take l.toNat = []) := by
  have hsorted : db.rows.Sorted Database.rowLE :=
    hwf.1.imp (fun h => le_of_lt h)
  refine ⟨?_, hwf.1, ?_, ?_, ?_⟩
  · unfold Main.read_books
    rw [if_neg (by omega), if_neg (by omega), if_neg (by omega)]
    unfold Database.get_all_books
    rw [hsorted.insertionSort_eq, if_neg (by omega)]
  · exact hwf.1.sublist ((List.take_sublist _ _).trans (List.drop_sublist _ _))
  · have h1 : ((db.rows.drop o.toNat).take l.toNat).length ≤ l.toNat :=
      (List.length_take _ _).le.trans (Nat.min_le_left _ _)
    omega
  · intro hlen
    have h2 : db.rows.length ≤ o.toNat := by omega
    rw [List.drop_eq_nil_of_le h2, List.take_nil]

/-- Witness for C2: listing the one-record store with `offset=0, limit=10`
returns exactly the single stored row. -/
theorem claim_C2_witness : Main.read_books sampleDB1 0 10 = .ok [rowT] :=
  (claim_C2 sampleDB1 0 10 (by decide) (by decide) (by decide) (by decide)).1

/-- C7: deleting a stored record succeeds (204/no content) and a subsequent
fetch of the same id on the resulting store answers 404 (NotFoundError); and
a delete request for an id with no corresponding record answers 404. -/
theorem claim_C7 :
    (∀ (db : DB) (r : Row), db.WF → r ∈ db.rows →
      (Main.delete_book db r.id).1 = .ok () ∧
      Main.read_book (Main.delete_book db r.id).2 r.id = .error e404) ∧
    (∀ (db : DB) (pid : Int), Database.get_book_by_id db pid = none →
      (Main.delete_book db pid).1 = .error e404) := by
  constructor
  · intro db r hwf hr
    have hcnt : db.rows.countP (fun x => x.id == r.id) = 1 :=
      countP_id_eq_one hwf.1 hr
    constructor
    · simp [Main.delete_book, Database.delete_book, hcnt]
    · have hfind : (db.rows.filter (fun x => ¬ x.id == r.id)).find?
          (fun x => x.id == r.id) = none := by
        rw [List.find?_eq_none]
        intro x hx
        have := (List.mem_filter.mp hx).2
        simpa using this
      have hstate : (Main.delete_book db r.id).2 =
          { db with rows := db.rows.filter (fun x => ¬ x.id == r.id) } := by
        simp [Main.delete_book, Database.delete_book, hcnt]
      rw [hstate]
      unfold Main.read_book Database.get_book_by_id
      rw [hfind]
  · intro db pid h
    have hz : db.rows.countP (fun x => x.id == pid) = 0 := by
      rw [List.countP_eq_zero]
      exact List.find?_eq_none.mp h
    simp [Main.delete_book, Database.delete_book, hz]

/-- Witness for C7: deleting id 1 from the one-record store succeeds and the
re-fetch answers 404; deleting the absent id 5 answers 404. -/
theorem claim_C7_witness :
    ((Main.delete_book sampleDB1 rowT.id).1 = .ok () ∧
      Main.read_book (Main.delete_book sampleDB1 rowT.id).2 rowT.id = .error e404) ∧
    (Main.delete_book sampleDB1 5).1 = .error e404 :=
  ⟨claim_C7.1 sampleDB1 rowT (by decide) (by decide),
   claim_C7.2 sampleDB1 5 (by decide)⟩

/-- Closed form of `database.create_book` on a dict whose filtered column list is
non-empty, in closed form. -/
theorem Database.create_book_eq (d : Dict) (db : DB)
    (hie : (List.filter (fun kv => kv.2 ≠ none) d).isEmpty = false) :
    Database.create_book d db = some (db.nextId,
      { rows := db.rows ++
          [applyAssignments (List.filter (fun kv => kv.2 ≠ none) d) (Database.defaultRow db)],
        nextId := db.nextId + 1, clock := db.clock + 1 }) := by
  simp only [Database.create_book, hie, Bool.false_eq_true, if_false, ite_false]

/-- C3: for every well-formed store and every valid create payload carrying a
non-empty title, a non-empty author and a positive price, `POST /books`
succeeds; the returned record is re-fetched from the store after the insert,
its freshly assigned id is `nextId`, strictly greater than the id of every
stored row (and the id counter advances, so ids strictly increase over
successive inserts), its `created_at` is non-null, and the resulting store is
again well-formed. -/
theorem claim_C3 (db : DB) (b : BookCreate) (t a : String) (p : Int)
    (hwf : db.WF) (hv : b.validB = true)
    (ht : b.title = .val t) (ht' : t ≠ "")
    (ha : b.author = .val a) (ha' : a ≠ "")
    (hp : b.price = .val p) (hp' : 0 < p) :
    ∃ row db', Main.create_book db b = (.ok row, db') ∧
      Database.get_book_by_id db' row.id = some row ∧
      row.id = db.nextId ∧ (∀ r ∈ db.rows, r.id < row.id) ∧
      row.created_at = some (.i db.clock) ∧
      db'.nextId = db.nextId + 1 ∧ db'.WF := by
  have hgt : Dict.get b.dictExcludeUnset .title = some (.s t) := by
    rw [b.dict_get (by decide)]
    simp [BookCreate.getTri, ht]
  have hga : Dict.get b.dictExcludeUnset .author = some (.s a) := by
    rw [b.dict_get (by decide)]
    simp [BookCreate.getTri, ha]
  have hgp : Dict.get b.dictExcludeUnset .price = some (.i p) := by
    rw [b.dict_get (by decide)]
    simp [BookCreate.getTri, hp]
  have hmemf : (Col.title, some (Val.s t)) ∈
      List.filter (fun kv => kv.2 ≠ none) b.dictExcludeUnset := by
    apply List.mem_filter.mpr
    refine ⟨?_, by simp⟩
    apply BookCreate.mem_dictExcludeUnset.mpr
    refine ⟨by decide, ?_⟩
    simp [BookCreate.triEntry, BookCreate.getTri, ht]
  have hie : (List.filter (fun kv => kv.2 ≠ none) b.dictExcludeUnset).isEmpty = false := by
    cases hfe : List.filter (fun kv => kv.2 ≠ none) b.dictExcludeUnset with
    | nil => rw [hfe] at hmemf; exact absurd hmemf (List.not_mem_nil _)
    | cons _ _ => rfl
  have hkeys : ∀ kv ∈ List.filter (fun kv => kv.2 ≠ none) b.dictExcludeUnset,
      kv.1 ≠ Col.id ∧ kv.1 ≠ Col.created_at := fun kv hkv =>
    BookCreate.dict_keys_input (List.mem_of_mem_filter hkv)
  set row := applyAssignments (List.filter (fun kv => kv.2 ≠ none) b.dictExcludeUnset)
    (Database.defaultRow db) with hrow
  have hpres := applyAssignments_preserves hkeys (Database.defaultRow db)
  have hrid : row.id = db.nextId := hpres.1
  have hrca : row.created_at = some (.i db.clock) := hpres.2
  set db' : DB := (⟨db.rows ++ [row], db.nextId + 1, db.clock + 1⟩ : DB) with hdb'
  have hfetch : Database.get_book_by_id db' db.nextId = some row := by
    unfold Database.get_book_by_id
    show (db.rows ++ [row]).find? (fun r => r.id == db.nextId) = some row
    rw [find?_append_right]
    · rw [List.find?_cons_of_pos _ (by simp [hrid])]
    · intro x hx
      have := hwf.2 x hx
      simp only [beq_iff_eq]
      omega
  have hmain : Main.create_book db b = (.ok row, db') := by
    unfold Main.create_book
    rw [hv]
    simp only [not_true_eq_false, if_false, ite_false]
    rw [if_neg (by simp [hgt, hga, hgp, Main.falsy, ht', ha'])]
    rw [Database.create_book_eq _ _ hie]
    show (match Database.get_book_by_id db' db.nextId with
      | none => (Except.error e500, db')
      | some new_book => (Except.ok new_book, db')) = (Except.ok row, db')
    rw [hfetch]
  refine ⟨row, db', hmain, by rw [hrid]; exact hfetch, hrid, ?_, hrca, rfl, ?_, ?_⟩
  · intro r hr
    have := hwf.2 r hr
    omega
  · show (db.rows ++ [row]).Pairwise (fun x y => x.id < y.id)
    rw [List.pairwise_append]
    refine ⟨hwf.1, List.pairwise_singleton _ _, ?_⟩
    intro x hx y hy
    have hy' : y = row := by simpa using hy
    have := hwf.2 x hx
    subst hy'
    omega
  · show ∀ r ∈ db.rows ++ [row], r.id < db.nextId + 1
    intro r hr
    rcases List.mem_append.mp hr with h | h
    · have := hwf.2 r h
      omega
    · have : r = row := by simpa using h
      subst this
      omega

/-- Witness for C3: creating `{"title":"T","author":"A","price":100}` on the
empty store succeeds with id 1 and a non-null `created_at`. -/
theorem claim_C3_witness :
    ∃ row db', Main.create_book sampleDB bodyTA = (.ok row, db') ∧
      Database.get_book_by_id db' row.id = some row ∧
      row.id = sampleDB.nextId ∧ (∀ r ∈ sampleDB.rows, r.id < row.id) ∧
      row.created_at = some (.i sampleDB.clock) ∧
      db'.nextId = sampleDB.nextId + 1 ∧ db'.WF :=
  claim_C3 sampleDB bodyTA "T" "A" 100 (by decide) (by decide) rfl (by decide)
    rfl (by decide) rfl (by decide)

/-- Inversion of a successful PUT: the store after the call is the old store
with the target row(s) rewritten by the effective-fields SET clause, and the
response body is the re-fetched target record. -/
theorem Main.update_book_ok_inv {db : DB} {pid : Int} {b : BookCreate}
    {row : Row} {db' : DB} (h : Main.update_book db pid b = (.ok row, db')) :
    db'.rows = db.rows.map (fun r =>
      if r.id = pid then applyAssignments b.dictExcludeUnset r else r) ∧
    Database.get_book_by_id db' pid = some row := by
  unfold Main.update_book at h
  split at h
  · simp at h
  split at h
  · simp at h
  dsimp only at h
  split at h
  · simp at h
  rename_i hne
  rw [Database.update_book_dict pid b db (by simpa using hne)] at h
  split at h
  · simp at h
  rename_i success db₂ hsome
  obtain ⟨hsuc, hdb₂⟩ := (Prod.mk.injEq _ _ _ _).mp (Option.some.inj hsome)
  subst hdb₂
  split at h
  · simp at h
  split at h
  · simp at h
  rename_i ub hub
  rw [Prod.mk.injEq] at h
  obtain ⟨h1, h2⟩ := h
  have hu' : ub = row := Except.ok.inj h1
  subst hu'
  subst h2
  exact ⟨rfl, hub⟩

/-- C1: whenever a PUT succeeds, every stored record with a different id is
kept verbatim, and the target record is rewritten so that every column
missing from the effective (explicitly supplied) field set keeps its stored
value and every supplied column takes the supplied value — a partial update
touching exactly the supplied columns. -/
theorem claim_C1 (db : DB) (pid : Int) (b : BookCreate) (row : Row) (db' : DB)
    (h : Main.update_book db pid b = (.ok row, db')) :
    (∀ r ∈ db.rows, r.id ≠ pid → r ∈ db'.rows) ∧
    (∀ r ∈ db.rows, r.id = pid → ∃ r' ∈ db'.rows,
      (∀ c, c ∉ b.dictExcludeUnset.map Prod.fst → r'.get c = r.get c) ∧
      (∀ c v, (c, v) ∈ b.dictExcludeUnset → r'.get c = v)) := by
  obtain ⟨hrows, -⟩ := Main.update_book_ok_inv h
  constructor
  · intro r hr hne
    rw [hrows]
    exact List.mem_map.mpr ⟨r, hr, by simp [hne]⟩
  · intro r hr heq
    refine ⟨applyAssignments b.dictExcludeUnset r, ?_, ?_, ?_⟩
    · rw [hrows]
      exact List.mem_map.mpr ⟨r, hr, by simp [heq]⟩
    · intro c hc
      exact applyAssignments_get_not_mem r hc
    · intro c v hcv
      exact applyAssignments_get_mem r b.dict_keys_nodup hcv
        (BookCreate.dict_keys_input hcv).1

/-- The record after replacing with `{"price": 500}`. -/
def rowT500 : Row := { rowT with price := some (.i 500) }

def dbAfter500 : DB := ⟨[rowT500], 2, 1⟩

/-- Witness for C1: replacing the stored record with a body containing only
`{price: 500}` updates `price` and leaves all other columns unchanged. -/
theorem claim_C1_witness :
    (∀ r ∈ sampleDB1.rows, r.id ≠ 1 → r ∈ dbAfter500.rows) ∧
    (∀ r ∈ sampleDB1.rows, r.id = 1 → ∃ r' ∈ dbAfter500.rows,
      (∀ c, c ∉ bodyPrice500.dictExcludeUnset.map Prod.fst → r'.get c = r.get c) ∧
      (∀ c v, (c, v) ∈ bodyPrice500.dictExcludeUnset → r'.get c = v)) :=
  claim_C1 sampleDB1 1 bodyPrice500 rowT500 dbAfter500 (by decide)

/-- C10: a PUT body field explicitly supplied as null stays in the effective
field set (so the store sets that column to NULL on the target record),
whereas a POST body field explicitly supplied as null is dropped from the
column list before the INSERT statement is built. -/
theorem claim_C10 :
    (∀ (b : BookCreate) (c : Col), c ∈ inputCols → b.getTri c = .null →
      (c, none) ∈ b.dictExcludeUnset ∧
      ∀ (db : DB) (pid : Int) (row : Row) (db' : DB),
        Main.update_book db pid b = (.ok row, db') →
        ∀ r' ∈ db'.rows, r'.id = pid → r'.get c = none) ∧
    (∀ (b : BookCreate) (c : Col), c ∈ inputCols → b.getTri c = .null →
      c ∉ (List.filter (fun kv => kv.2 ≠ none) b.dictExcludeUnset).map Prod.fst) := by
  constructor
  · intro b c hc hnull
    have hmem : (c, none) ∈ b.dictExcludeUnset := by
      apply BookCreate.mem_dictExcludeUnset.mpr
      refine ⟨hc, ?_⟩
      unfold BookCreate.triEntry
      rw [hnull]
    refine ⟨hmem, ?_⟩
    intro db pid row db' h r' hr' hid
    obtain ⟨hrows, -⟩ := Main.update_book_ok_inv h
    rw [hrows] at hr'
    obtain ⟨r, hr, hfr⟩ := List.mem_map.mp hr'
    by_cases hcase : r.id = pid
    · rw [if_pos hcase] at hfr
      rw [← hfr]
      exact applyAssignments_get_mem r b.dict_keys_nodup hmem
        (BookCreate.dict_keys_input hmem).1
    · rw [if_neg hcase] at hfr
      rw [← hfr] at hid
      exact absurd hid hcase
  · intro b c hc hnull hmem'
    obtain ⟨kv, hkv, hfst⟩ := List.mem_map.mp hmem'
    obtain ⟨c₀, v⟩ := kv
    obtain ⟨hin, hv2⟩ := List.mem_filter.mp hkv
    simp only at hfst
    subst hfst
    obtain ⟨-, he⟩ := BookCreate.mem_dictExcludeUnset.mp hin
    unfold BookCreate.triEntry at he
    rw [hnull] at he
    have : v = none := (Prod.mk.injEq _ _ _ _).mp (Option.some.inj he) |>.2.symm
    subst this
    simp at hv2

/-- Body `{"publisher": null, "price": 500}` -/
def bodyPubNull : BookCreate :=
  { BookCreate.empty with publisher := .null, price := .val 500 }

/-- Witness for C10: an explicit `publisher: null` in a PUT body stays in the
effective set and the stored column ends up NULL, while the same null field
is omitted from an INSERT's column list. -/
theorem claim_C10_witness :
    ((Col.publisher, none) ∈ bodyPubNull.dictExcludeUnset ∧
      rowT500.get Col.publisher = none) ∧
    Col.publisher ∉
      (List.filter (fun kv => kv.2 ≠ none) bodyPubNull.dictExcludeUnset).map Prod.fst :=
  ⟨⟨(claim_C10.1 bodyPubNull Col.publisher (by decide) (by decide)).1,
    (claim_C10.1 bodyPubNull Col.publisher (by decide) (by decide)).2
      sampleDB1 1 rowT500 dbAfter500 (by decide) rowT500 (by decide) (by decide)⟩,
   claim_C10.2 bodyPubNull Col.publisher (by decide) (by decide)⟩

end BooksApi
